import Mathlib

/-!
Verification of the cue-designer geometry engine.

The definitions below are a shallow embedding of the geometry core
(`backend/cues/geometry/core.py`), the rule validators
(`backend/cues/geometry/validators.py`), the aggregate operations
(`backend/cues/geometry/operations.py`) and the profile sampling endpoint
(`cues/api/views.py`).  Python floats are modelled as rationals (`ℚ`),
except where the source computes transcendental quantities (`math.atan`,
`math.pi`), which are modelled in `ℝ`.  Fallible Python code (statements
that can raise) is modelled with `Except PyErr`.  Validation "issues",
rendered as formatted strings by the source, are modelled as structured
issue values carrying the section index or field involved; the formatted
message text is presentation only.
-/

namespace CueDesigner

/-- The Python runtime errors the embedded code can raise. -/
inductive PyErr where
  | valueError
  | zeroDivisionError
  | nameError
  | keyError
  deriving DecidableEq, Repr

/-- `Point3D`: axial position (inches), radial distance (mm), rotational
angle (degrees).  Mirrors the dataclass in `core.py`. -/
structure Point3D where
  x : ℚ
  r : ℚ
  theta : ℚ := 0
  deriving DecidableEq, Repr

instance : Inhabited Point3D := ⟨⟨0, 0, 0⟩⟩

/-- `CueSectionGeometry`: a section type tag, a start point and an end
point, as in `core.py`.  The field `end` is a Lean keyword, hence the
quoted name. -/
structure CueSectionGeometry where
  section_type : String
  start : Point3D
  «end» : Point3D
  deriving DecidableEq, Repr

instance : Inhabited CueSectionGeometry := ⟨⟨"", default, default⟩⟩

namespace CueSectionGeometry

/-- `length`: `end.x - start.x` (inches). -/
def length (s : CueSectionGeometry) : ℚ := s.«end».x - s.start.x

/-- `start_radius`: `start.r` (mm). -/
def start_radius (s : CueSectionGeometry) : ℚ := s.start.r

/-- `end_radius`: `end.r` (mm). -/
def end_radius (s : CueSectionGeometry) : ℚ := s.«end».r

/-- `taper_rate`: `(end_radius - start_radius) / length`, with the
source's explicit guard returning `0.0` for zero-length sections. -/
def taper_rate (s : CueSectionGeometry) : ℚ :=
  if s.length = 0 then 0 else (s.end_radius - s.start_radius) / s.length

/-- `taper_angle_degrees`: `math.degrees(math.atan(taper_rate / 25.4))`,
with the source's explicit guard returning `0.0` for zero-length
sections.  `math.degrees x = x * 180 / π`. -/
noncomputable def taper_angle_degrees (s : CueSectionGeometry) : ℝ :=
  if s.length = 0 then 0
  else Real.arctan ((s.taper_rate : ℝ) / 25.4) * (180 / Real.pi)

/-- `radius_at_position`: raises `ValueError` when `x` is outside
`[start.x, end.x]`; otherwise computes `t = (x - start.x) / length` and
returns `start_radius + t * (end_radius - start_radius)`.  On a
zero-length section the range check can pass (only at `x = start.x`),
and the division `0/0` then raises `ZeroDivisionError` in Python, which
the model makes explicit. -/
def radius_at_position (s : CueSectionGeometry) (x : ℚ) : Except PyErr ℚ :=
  if x < s.start.x ∨ x > s.«end».x then .error .valueError
  else if s.length = 0 then .error .zeroDivisionError
  else .ok (s.start_radius + (x - s.start.x) / s.length * (s.end_radius - s.start_radius))

/-- The interpolated radius value `start_radius + t·(end_radius −
start_radius)` with `t = (x − start.x)/length`, i.e. the value
`radius_at_position` returns on the non-error path. -/
def interpolated_radius (s : CueSectionGeometry) (x : ℚ) : ℚ :=
  s.start_radius + (x - s.start.x) / s.length * (s.end_radius - s.start_radius)

end CueSectionGeometry

/-- C2: for every section with `start.axial < end.axial`,
`radius_at_position x` equals the linear interpolation
`start_radius + t·(end_radius − start_radius)`, `t = (x − start.axial)/length`,
for `x ∈ [start.axial, end.axial]`, and fails with a range error
(`ValueError`) for `x` outside that interval; in particular it is exact
at the two endpoints and equals `(start_radius + end_radius)/2` at the
true midpoint. -/
theorem radius_at_position_spec (s : CueSectionGeometry)
    (h : s.start.x < s.«end».x) :
    (∀ x : ℚ, s.start.x ≤ x → x ≤ s.«end».x →
      s.radius_at_position x =
        .ok (s.start_radius + (x - s.start.x) / s.length * (s.end_radius - s.start_radius)))
    ∧ (∀ x : ℚ, x < s.start.x ∨ s.«end».x < x →
      s.radius_at_position x = .error .valueError)
    ∧ s.radius_at_position s.start.x = .ok s.start_radius
    ∧ s.radius_at_position s.«end».x = .ok s.end_radius
    ∧ s.radius_at_position ((s.start.x + s.«end».x) / 2) =
        .ok ((s.start_radius + s.end_radius) / 2) := by
  have hlen : s.length ≠ 0 := by
    have : (0 : ℚ) < s.length := by
      simp only [CueSectionGeometry.length]
      linarith
    exact ne_of_gt this
  have hok : ∀ x : ℚ, s.start.x ≤ x → x ≤ s.«end».x →
      s.radius_at_position x =
        .ok (s.start_radius + (x - s.start.x) / s.length * (s.end_radius - s.start_radius)) := by
    intro x hx1 hx2
    unfold CueSectionGeometry.radius_at_position
    rw [if_neg, if_neg hlen]
    exact not_or.mpr ⟨not_lt.mpr hx1, not_lt.mpr hx2⟩
  refine ⟨hok, ?_, ?_, ?_, ?_⟩
  · intro x hx
    unfold CueSectionGeometry.radius_at_position
    rw [if_pos]
    exact hx.imp id id
  · rw [hok s.start.x le_rfl (le_of_lt h)]
    congr 1
    field_simp
  · rw [hok s.«end».x (le_of_lt h) le_rfl]
    congr 1
    have : (s.«end».x - s.start.x) / s.length = 1 := by
      rw [CueSectionGeometry.length] at hlen ⊢
      field_simp
    rw [this]
    simp [CueSectionGeometry.start_radius, CueSectionGeometry.end_radius]
  · rw [hok ((s.start.x + s.«end».x) / 2) (by linarith) (by linarith)]
    congr 1
    rw [CueSectionGeometry.length] at hlen ⊢
    field_simp
    ring

/-- Witness for C2 at a concrete forearm section: the midpoint of the
section from `(0 in, 10 mm)` to `(10 in, 12 mm)` interpolates to the
average radius `11 mm`. -/
theorem radius_at_position_spec_witness :
    CueSectionGeometry.radius_at_position ⟨"forearm", ⟨0, 10, 0⟩, ⟨10, 12, 0⟩⟩
      (((0 : ℚ) + 10) / 2) = .ok ((10 + 12) / 2) :=
  (radius_at_position_spec ⟨"forearm", ⟨0, 10, 0⟩, ⟨10, 12, 0⟩⟩ (by norm_num)).2.2.2.2

/-- Ordering key used by `CueDesignGeometry.__init__`:
`sorted(sections, key=lambda s: s.start.x)`. -/
def startLE (a b : CueSectionGeometry) : Prop := a.start.x ≤ b.start.x

instance : DecidableRel startLE := fun a b => inferInstanceAs (Decidable (a.start.x ≤ b.start.x))

instance : IsTotal CueSectionGeometry startLE := ⟨fun a b => le_total a.start.x b.start.x⟩

instance : IsTrans CueSectionGeometry startLE := ⟨fun _ _ _ h1 h2 => le_trans h1 h2⟩

/-- `CueDesignGeometry`: holds the section list as stored by the
constructor. -/
structure CueDesignGeometry where
  sections : List CueSectionGeometry
  deriving DecidableEq, Repr

/-- `CueDesignGeometry.__init__`: stores
`sorted(sections, key=lambda s: s.start.x)`.  Python's `sorted` is a
stable sort on the key; `List.insertionSort` with the reflexive key
order is likewise stable, so the two agree on every input. -/
def mkDesign (sections : List CueSectionGeometry) : CueDesignGeometry :=
  ⟨List.insertionSort startLE sections⟩

namespace CueDesignGeometry

/-- `total_length`: `0.0` for an empty design, otherwise
`sections[-1].end.x - sections[0].start.x`. -/
def total_length (d : CueDesignGeometry) : ℚ :=
  if d.sections.isEmpty then 0
  else (d.sections.getLastD default).«end».x - (d.sections.headD default).start.x

/-- `get_section_at_position`: linear scan returning the first section
whose closed interval `[start.x, end.x]` contains the position. -/
def get_section_at_position (d : CueDesignGeometry) (x : ℚ) : Option CueSectionGeometry :=
  d.sections.find? (fun s => decide (s.start.x ≤ x ∧ x ≤ s.«end».x))

/-- Design-level `radius_at_position`: delegates to the containing
section, raising `ValueError` when no section contains the position. -/
def radius_at_position (d : CueDesignGeometry) (x : ℚ) : Except PyErr ℚ :=
  match d.get_section_at_position x with
  | some s => s.radius_at_position x
  | none => .error .valueError

end CueDesignGeometry

/-- Structured form of the issues `validate_continuity` reports,
identified by the index of the left section of the adjacent pair. -/
inductive ContinuityIssue where
  | gap (i : ℕ)
  | radiusJump (i : ℕ)
  deriving DecidableEq, Repr

/-- The index of the adjacent pair a continuity issue is about. -/
def ContinuityIssue.index : ContinuityIssue → ℕ
  | .gap i => i
  | .radiusJump i => i

/-- `validate_continuity`: returns `[]` for fewer than two sections;
otherwise, for each adjacent pair of the stored (sorted) list, reports a
gap when `|current.end.x - next.start.x| > 0.001` and a radius jump when
`|current.end_radius - next.start_radius| > 0.1`.  It only ever returns
a list; it never raises. -/
def CueDesignGeometry.validate_continuity (d : CueDesignGeometry) : List ContinuityIssue :=
  if d.sections.length < 2 then []
  else
    (List.range (d.sections.length - 1)).flatMap (fun i =>
      let current := d.sections.getD i default
      let next := d.sections.getD (i + 1) default
      (if |current.«end».x - next.start.x| > 1/1000 then [ContinuityIssue.gap i] else []) ++
      (if |current.end_radius - next.start_radius| > 1/10 then [ContinuityIssue.radiusJump i] else []))

/-- C3: `validate_continuity` reports a gap issue for an index exactly
when that index names an adjacent pair of the stored sections whose
axial mismatch exceeds `0.001` in, a radius-jump issue exactly when the
pair's boundary radii differ by more than `0.1` mm, and nothing else;
designs with fewer than two sections, and designs whose adjacent pairs
abut perfectly with matching boundary radii, yield the empty list. -/
theorem validate_continuity_spec (d : CueDesignGeometry) :
    (∀ i : ℕ, ContinuityIssue.gap i ∈ d.validate_continuity ↔
      (i + 1 < d.sections.length ∧
        |(d.sections.getD i default).«end».x - (d.sections.getD (i + 1) default).start.x| > 1/1000))
    ∧ (∀ i : ℕ, ContinuityIssue.radiusJump i ∈ d.validate_continuity ↔
      (i + 1 < d.sections.length ∧
        |(d.sections.getD i default).end_radius - (d.sections.getD (i + 1) default).start_radius| > 1/10))
    ∧ (d.sections.length < 2 → d.validate_continuity = [])
    ∧ ((∀ i : ℕ, i + 1 < d.sections.length →
          (d.sections.getD i default).«end».x = (d.sections.getD (i + 1) default).start.x ∧
          (d.sections.getD i default).end_radius = (d.sections.getD (i + 1) default).start_radius) →
        d.validate_continuity = [])
    ∧ d.validate_continuity.Nodup := by
  have hgap : ∀ i : ℕ, ContinuityIssue.gap i ∈ d.validate_continuity ↔
      (i + 1 < d.sections.length ∧
        |(d.sections.getD i default).«end».x - (d.sections.getD (i + 1) default).start.x| > 1/1000) := by
    intro i
    unfold CueDesignGeometry.validate_continuity
    by_cases h2 : d.sections.length < 2
    · rw [if_pos h2]
      simp only [List.not_mem_nil, false_iff, not_and]
      intro hi
      omega
    · rw [if_neg h2]
      simp only [List.mem_flatMap, List.mem_range, List.mem_append]
      constructor
      · rintro ⟨j, hj, hmem⟩
        rcases hmem with hmem | hmem
        · split at hmem
          · simp only [List.mem_singleton, ContinuityIssue.gap.injEq] at hmem
            subst hmem
            refine ⟨by omega, by assumption⟩
          · simp at hmem
        · split at hmem <;> simp at hmem
      · rintro ⟨hi, habs⟩
        refine ⟨i, by omega, Or.inl ?_⟩
        rw [if_pos habs]
        simp
  have hjump : ∀ i : ℕ, ContinuityIssue.radiusJump i ∈ d.validate_continuity ↔
      (i + 1 < d.sections.length ∧
        |(d.sections.getD i default).end_radius - (d.sections.getD (i + 1) default).start_radius| > 1/10) := by
    intro i
    unfold CueDesignGeometry.validate_continuity
    by_cases h2 : d.sections.length < 2
    · rw [if_pos h2]
      simp only [List.not_mem_nil, false_iff, not_and]
      intro hi
      omega
    · rw [if_neg h2]
      simp only [List.mem_flatMap, List.mem_range, List.mem_append]
      constructor
      · rintro ⟨j, hj, hmem⟩
        rcases hmem with hmem | hmem
        · split at hmem <;> simp at hmem
        · split at hmem
          · simp only [List.mem_singleton, ContinuityIssue.radiusJump.injEq] at hmem
            subst hmem
            refine ⟨by omega, by assumption⟩
          · simp at hmem
      · rintro ⟨hi, habs⟩
        refine ⟨i, by omega, Or.inr ?_⟩
        rw [if_pos habs]
        simp
  refine ⟨hgap, hjump, ?_, ?_, ?_⟩
  · intro h2
    unfold CueDesignGeometry.validate_continuity
    rw [if_pos h2]
  case refine_3 =>
    unfold CueDesignGeometry.validate_continuity
    by_cases h2 : d.sections.length < 2
    · rw [if_pos h2]
      exact List.nodup_nil
    · rw [if_neg h2]
      rw [List.nodup_flatMap]
      constructor
      · intro j _
        dsimp only
        split_ifs <;> simp
      · refine (List.pairwise_lt_range (d.sections.length - 1)).imp ?_
        intro a b hab iss ha hb
        have hidx : ∀ (j : ℕ) (iss : ContinuityIssue),
            iss ∈ ((if |(d.sections.getD j default).«end».x -
                (d.sections.getD (j + 1) default).start.x| > 1/1000 then
                [ContinuityIssue.gap j] else []) ++
              (if |(d.sections.getD j default).end_radius -
                (d.sections.getD (j + 1) default).start_radius| > 1/10 then
                [ContinuityIssue.radiusJump j] else [])) →
            iss.index = j := by
          intro j iss0 hmem
          rcases List.mem_append.mp hmem with hm | hm
          · split at hm
            · simp only [List.mem_singleton] at hm
              subst hm
              rfl
            · simp at hm
          · split at hm
            · simp only [List.mem_singleton] at hm
              subst hm
              rfl
            · simp at hm
        have h1 := hidx a iss ha
        have h2 := hidx b iss hb
        omega
  · intro hmatch
    rw [List.eq_nil_iff_forall_not_mem]
    intro iss hmem
    cases iss with
    | gap i =>
        rcases (hgap i).mp hmem with ⟨hi, habs⟩
        rw [(hmatch i hi).1] at habs
        simp only [sub_self, abs_zero] at habs
        exact absurd habs (by norm_num)
    | radiusJump i =>
        rcases (hjump i).mp hmem with ⟨hi, habs⟩
        rw [(hmatch i hi).2] at habs
        simp only [sub_self, abs_zero] at habs
        exact absurd habs (by norm_num)

/-- Witness for C3 at a concrete two-section design: perfectly abutting
sections with matching boundary radii produce zero continuity issues. -/
theorem validate_continuity_spec_witness :
    (mkDesign [⟨"forearm", ⟨0, 10, 0⟩, ⟨10, 10, 0⟩⟩,
               ⟨"handle", ⟨10, 10, 0⟩, ⟨20, 12, 0⟩⟩]).validate_continuity = [] := by
  refine (validate_continuity_spec
      (mkDesign [⟨"forearm", ⟨0, 10, 0⟩, ⟨10, 10, 0⟩⟩,
                 ⟨"handle", ⟨10, 10, 0⟩, ⟨20, 12, 0⟩⟩])).2.2.2.1 ?_
  intro i hi
  have h2 : (mkDesign [(⟨"forearm", ⟨0, 10, 0⟩, ⟨10, 10, 0⟩⟩ : CueSectionGeometry),
      ⟨"handle", ⟨10, 10, 0⟩, ⟨20, 12, 0⟩⟩]).sections.length = 2 := by decide
  rw [h2] at hi
  have : i = 0 := by omega
  subst this
  exact ⟨by decide, by decide⟩

/-- Structured form of the issues `validate_manufacturing_constraints`
in `core.py` reports, identified by the index of the section in the
stored list (the source iterates `for section in self.sections` and
formats one message per violated bound). -/
inductive ManufacturingIssue where
  | taperTooSteep (i : ℕ)
  | radiusTooSmall (i : ℕ)
  | radiusTooLarge (i : ℕ)
  deriving DecidableEq, Repr

/-- The index of the section a manufacturing issue is about. -/
def ManufacturingIssue.index : ManufacturingIssue → ℕ
  | .taperTooSteep i => i
  | .radiusTooSmall i => i
  | .radiusTooLarge i => i

/-- `validate_manufacturing_constraints` (`core.py`): per stored section,
flags `|taper_angle_degrees| > 5.0`, then
`min(start_radius, end_radius) < 5.0`, then
`max(start_radius, end_radius) > 25.0`.  Noncomputable because the
taper-angle comparison lives in `ℝ`. -/
noncomputable def CueDesignGeometry.validate_manufacturing_constraints
    (d : CueDesignGeometry) : List ManufacturingIssue :=
  (List.range d.sections.length).flatMap (fun i =>
    (if |(d.sections.getD i default).taper_angle_degrees| > 5 then
      [ManufacturingIssue.taperTooSteep i] else []) ++
    (if min (d.sections.getD i default).start_radius (d.sections.getD i default).end_radius < 5 then
      [ManufacturingIssue.radiusTooSmall i] else []) ++
    (if max (d.sections.getD i default).start_radius (d.sections.getD i default).end_radius > 25 then
      [ManufacturingIssue.radiusTooLarge i] else []))

/-- C4: `validate_manufacturing_constraints` flags a section exactly when
its taper angle exceeds 5° in magnitude, its smaller radius is below
5 mm, or its larger radius is above 25 mm; all three boundaries are
inclusive-pass (strict comparisons in the source). -/
theorem validate_manufacturing_constraints_spec (d : CueDesignGeometry) (i : ℕ)
    (h : i < d.sections.length) :
    (∃ iss ∈ d.validate_manufacturing_constraints, iss.index = i) ↔
      (|(d.sections.getD i default).taper_angle_degrees| > 5
       ∨ min (d.sections.getD i default).start_radius (d.sections.getD i default).end_radius < 5
       ∨ max (d.sections.getD i default).start_radius (d.sections.getD i default).end_radius > 25) := by
  unfold CueDesignGeometry.validate_manufacturing_constraints
  constructor
  · rintro ⟨iss, hmem, hidx⟩
    rw [List.mem_flatMap] at hmem
    rcases hmem with ⟨j, _, hbody⟩
    rw [List.mem_append, List.mem_append] at hbody
    rcases hbody with (hb | hb) | hb
    · split at hb
      · simp only [List.mem_singleton] at hb
        subst hb
        simp only [ManufacturingIssue.index] at hidx
        subst hidx
        exact Or.inl (by assumption)
      · simp at hb
    · split at hb
      · simp only [List.mem_singleton] at hb
        subst hb
        simp only [ManufacturingIssue.index] at hidx
        subst hidx
        exact Or.inr (Or.inl (by assumption))
      · simp at hb
    · split at hb
      · simp only [List.mem_singleton] at hb
        subst hb
        simp only [ManufacturingIssue.index] at hidx
        subst hidx
        exact Or.inr (Or.inr (by assumption))
      · simp at hb
  · rintro (hc | hc | hc)
    · refine ⟨ManufacturingIssue.taperTooSteep i, ?_, rfl⟩
      rw [List.mem_flatMap]
      refine ⟨i, List.mem_range.mpr h, ?_⟩
      rw [List.mem_append, List.mem_append, if_pos hc]
      exact Or.inl (Or.inl (List.mem_singleton.mpr rfl))
    · refine ⟨ManufacturingIssue.radiusTooSmall i, ?_, rfl⟩
      rw [List.mem_flatMap]
      refine ⟨i, List.mem_range.mpr h, ?_⟩
      rw [List.mem_append, List.mem_append, if_pos hc]
      exact Or.inl (Or.inr (List.mem_singleton.mpr rfl))
    · refine ⟨ManufacturingIssue.radiusTooLarge i, ?_, rfl⟩
      rw [List.mem_flatMap]
      refine ⟨i, List.mem_range.mpr h, ?_⟩
      rw [List.mem_append, List.mem_append, if_pos hc]
      exact Or.inr (List.mem_singleton.mpr rfl)

/-- Witness for C4 at the claim's two boundary inputs: a straight
section with both radii exactly 5.0 mm is not flagged, and one with both
radii 4.99 mm is flagged. -/
theorem validate_manufacturing_constraints_spec_witness :
    (¬ ∃ iss ∈ (mkDesign [⟨"handle", ⟨0, 5, 0⟩, ⟨1, 5, 0⟩⟩]).validate_manufacturing_constraints,
        iss.index = 0)
    ∧ (∃ iss ∈ (mkDesign [⟨"handle", ⟨0, 499/100, 0⟩, ⟨1, 499/100, 0⟩⟩]).validate_manufacturing_constraints,
        iss.index = 0) := by
  constructor
  · have hsec : (mkDesign [⟨"handle", ⟨0, 5, 0⟩, ⟨1, 5, 0⟩⟩]).sections.getD 0 default =
        (⟨"handle", ⟨0, 5, 0⟩, ⟨1, 5, 0⟩⟩ : CueSectionGeometry) := rfl
    refine (not_congr (validate_manufacturing_constraints_spec
        (mkDesign [⟨"handle", ⟨0, 5, 0⟩, ⟨1, 5, 0⟩⟩]) 0 (by decide))).mpr ?_
    rw [hsec]
    have hangle : CueSectionGeometry.taper_angle_degrees ⟨"handle", ⟨0, 5, 0⟩, ⟨1, 5, 0⟩⟩ = 0 := by
      rw [CueSectionGeometry.taper_angle_degrees]
      have hlen : CueSectionGeometry.length ⟨"handle", ⟨0, 5, 0⟩, ⟨1, 5, 0⟩⟩ = 1 := by
        norm_num [CueSectionGeometry.length]
      have hrate : CueSectionGeometry.taper_rate ⟨"handle", ⟨0, 5, 0⟩, ⟨1, 5, 0⟩⟩ = 0 := by
        rw [CueSectionGeometry.taper_rate, hlen]
        norm_num [CueSectionGeometry.start_radius, CueSectionGeometry.end_radius]
      rw [if_neg (by rw [hlen]; norm_num), hrate]
      simp
    rw [hangle]
    push_neg
    refine ⟨by norm_num, ?_, ?_⟩ <;>
      norm_num [CueSectionGeometry.start_radius, CueSectionGeometry.end_radius]
  · have hsec : (mkDesign [⟨"handle", ⟨0, 499/100, 0⟩, ⟨1, 499/100, 0⟩⟩]).sections.getD 0 default =
        (⟨"handle", ⟨0, 499/100, 0⟩, ⟨1, 499/100, 0⟩⟩ : CueSectionGeometry) := rfl
    refine (validate_manufacturing_constraints_spec
        (mkDesign [⟨"handle", ⟨0, 499/100, 0⟩, ⟨1, 499/100, 0⟩⟩]) 0 (by decide)).mpr ?_
    rw [hsec]
    refine Or.inr (Or.inl ?_)
    norm_num [CueSectionGeometry.start_radius, CueSectionGeometry.end_radius]

/-- Strict version of the constructor's ordering key. -/
def startLT (a b : CueSectionGeometry) : Prop := a.start.x < b.start.x

instance : IsAntisymm CueSectionGeometry startLT :=
  ⟨fun _ _ h1 h2 => (lt_asymm h1 h2).elim⟩

/-- A list sorted weakly by start position whose start positions are
pairwise distinct is sorted strictly. -/
theorem sorted_startLT_of_sorted_startLE (l : List CueSectionGeometry)
    (hs : List.Sorted startLE l) (hn : (l.map (fun s => s.start.x)).Nodup) :
    List.Sorted startLT l := by
  have hne : List.Pairwise (fun a b : CueSectionGeometry => a.start.x ≠ b.start.x) l :=
    (List.pairwise_map.mp hn)
  exact (hs.and hne).imp (fun h => lt_of_le_of_ne h.1 h.2)

/-- Counterexample to C6 as stated: two sections sharing a start
position.  Python's stable sort preserves the caller's relative order of
tied keys, so the two permutations of the same section list produce
designs with different stored orders and different `total_length`. -/
theorem mkDesign_perm_counterexample :
    ([(⟨"forearm", ⟨0, 10, 0⟩, ⟨5, 10, 0⟩⟩ : CueSectionGeometry),
      ⟨"handle", ⟨0, 10, 0⟩, ⟨3, 10, 0⟩⟩].Perm
     [⟨"handle", ⟨0, 10, 0⟩, ⟨3, 10, 0⟩⟩, ⟨"forearm", ⟨0, 10, 0⟩, ⟨5, 10, 0⟩⟩])
    ∧ (mkDesign [⟨"forearm", ⟨0, 10, 0⟩, ⟨5, 10, 0⟩⟩,
                 ⟨"handle", ⟨0, 10, 0⟩, ⟨3, 10, 0⟩⟩]).total_length = 3
    ∧ (mkDesign [⟨"handle", ⟨0, 10, 0⟩, ⟨3, 10, 0⟩⟩,
                 ⟨"forearm", ⟨0, 10, 0⟩, ⟨5, 10, 0⟩⟩]).total_length = 5
    ∧ mkDesign [⟨"forearm", ⟨0, 10, 0⟩, ⟨5, 10, 0⟩⟩,
                ⟨"handle", ⟨0, 10, 0⟩, ⟨3, 10, 0⟩⟩] ≠
      mkDesign [⟨"handle", ⟨0, 10, 0⟩, ⟨3, 10, 0⟩⟩,
                ⟨"forearm", ⟨0, 10, 0⟩, ⟨5, 10, 0⟩⟩] := by
  have h1 : mkDesign [⟨"forearm", ⟨0, 10, 0⟩, ⟨5, 10, 0⟩⟩,
      ⟨"handle", ⟨0, 10, 0⟩, ⟨3, 10, 0⟩⟩] =
      ⟨[⟨"forearm", ⟨0, 10, 0⟩, ⟨5, 10, 0⟩⟩, ⟨"handle", ⟨0, 10, 0⟩, ⟨3, 10, 0⟩⟩]⟩ := by
    rw [mkDesign]
    congr 1
  have h2 : mkDesign [⟨"handle", ⟨0, 10, 0⟩, ⟨3, 10, 0⟩⟩,
      ⟨"forearm", ⟨0, 10, 0⟩, ⟨5, 10, 0⟩⟩] =
      ⟨[⟨"handle", ⟨0, 10, 0⟩, ⟨3, 10, 0⟩⟩, ⟨"forearm", ⟨0, 10, 0⟩, ⟨5, 10, 0⟩⟩]⟩ := by
    rw [mkDesign]
    congr 1
  refine ⟨List.Perm.swap _ _ _, ?_, ?_, ?_⟩
  · rw [h1]
    norm_num [CueDesignGeometry.total_length]
  · rw [h2]
    norm_num [CueDesignGeometry.total_length]
  · rw [h1, h2]
    intro hcontra
    have := congrArg (fun d => (CueDesignGeometry.sections d).headD default) hcontra
    simp only [List.headD] at this
    exact absurd (congrArg CueSectionGeometry.section_type this) (by decide)

/-- C6 (amended): the constructed design stores a permutation of the
input sorted ascending by start position; and any two permutations of a
section list whose start positions are pairwise distinct construct
identical designs, hence identical total length and validation
results. -/
theorem mkDesign_sorted_spec :
    (∀ l : List CueSectionGeometry,
        (mkDesign l).sections.Perm l ∧ List.Sorted startLE (mkDesign l).sections)
    ∧ (∀ l₁ l₂ : List CueSectionGeometry, l₁.Perm l₂ →
        (l₁.map (fun s => s.start.x)).Nodup →
        mkDesign l₁ = mkDesign l₂ ∧
        (mkDesign l₁).total_length = (mkDesign l₂).total_length ∧
        (mkDesign l₁).validate_continuity = (mkDesign l₂).validate_continuity ∧
        (mkDesign l₁).validate_manufacturing_constraints =
          (mkDesign l₂).validate_manufacturing_constraints) := by
  have hbasic : ∀ l : List CueSectionGeometry,
      (mkDesign l).sections.Perm l ∧ List.Sorted startLE (mkDesign l).sections :=
    fun l => ⟨List.perm_insertionSort startLE l, List.sorted_insertionSort startLE l⟩
  refine ⟨hbasic, ?_⟩
  intro l₁ l₂ hperm hnodup
  have heq : mkDesign l₁ = mkDesign l₂ := by
    have hperm12 : (mkDesign l₁).sections.Perm (mkDesign l₂).sections :=
      ((hbasic l₁).1.trans hperm).trans (hbasic l₂).1.symm
    have hn₁ : ((mkDesign l₁).sections.map (fun s => s.start.x)).Nodup :=
      (((hbasic l₁).1.map (fun s => s.start.x)).nodup_iff).mpr hnodup
    have hn₂ : ((mkDesign l₂).sections.map (fun s => s.start.x)).Nodup :=
      ((hperm12.map (fun s => s.start.x)).nodup_iff).mp hn₁
    have hs₁ := sorted_startLT_of_sorted_startLE _ (hbasic l₁).2 hn₁
    have hs₂ := sorted_startLT_of_sorted_startLE _ (hbasic l₂).2 hn₂
    exact congrArg CueDesignGeometry.mk (List.eq_of_perm_of_sorted hperm12 hs₁ hs₂)
  exact ⟨heq, by rw [heq], by rw [heq], by rw [heq]⟩

/-- Witness for C6 at two concrete permutations of a two-section list
with distinct start positions: both orders build the same design. -/
theorem mkDesign_sorted_spec_witness :
    mkDesign [⟨"forearm", ⟨0, 10, 0⟩, ⟨10, 11, 0⟩⟩, ⟨"handle", ⟨10, 11, 0⟩, ⟨20, 12, 0⟩⟩] =
    mkDesign [⟨"handle", ⟨10, 11, 0⟩, ⟨20, 12, 0⟩⟩, ⟨"forearm", ⟨0, 10, 0⟩, ⟨10, 11, 0⟩⟩] :=
  (mkDesign_sorted_spec.2
    [⟨"forearm", ⟨0, 10, 0⟩, ⟨10, 11, 0⟩⟩, ⟨"handle", ⟨10, 11, 0⟩, ⟨20, 12, 0⟩⟩]
    [⟨"handle", ⟨10, 11, 0⟩, ⟨20, 12, 0⟩⟩, ⟨"forearm", ⟨0, 10, 0⟩, ⟨10, 11, 0⟩⟩]
    (List.Perm.swap _ _ _) (by norm_num)).1

/-- `List.find?` returns the element at the first index satisfying the
predicate. -/
theorem find?_eq_of_first {α : Type} [Inhabited α] (p : α → Bool) (l : List α) (i : ℕ)
    (h : i < l.length) (hp : p (l.getD i default) = true)
    (hf : ∀ j, j < i → ¬ p (l.getD j default) = true) :
    l.find? p = some (l.getD i default) := by
  induction l generalizing i with
  | nil => simp at h
  | cons a t ih =>
      cases i with
      | zero => exact List.find?_cons_of_pos t hp
      | succ i =>
          have ha : ¬ p a = true := hf 0 (Nat.succ_pos i)
          rw [List.find?_cons_of_neg t (by simpa using ha)]
          exact ih i (by simpa using h) hp (fun j hj => hf (j + 1) (by omega))

/-- C10: section containment in `get_section_at_position` is inclusive
at both endpoints, and the linear scan returns the first section (in
stored ascending-start order) whose closed interval contains the
position; `radius_at_position` therefore answers from that section, and
at a position equal to that section's end it returns that section's end
radius. -/
theorem get_section_at_position_first (d : CueDesignGeometry) (x : ℚ) (i : ℕ)
    (h : i < d.sections.length)
    (hc : (d.sections.getD i default).start.x ≤ x ∧ x ≤ (d.sections.getD i default).«end».x)
    (hfirst : ∀ j, j < i →
      ¬((d.sections.getD j default).start.x ≤ x ∧ x ≤ (d.sections.getD j default).«end».x)) :
    d.get_section_at_position x = some (d.sections.getD i default)
    ∧ ((d.sections.getD i default).length ≠ 0 →
        d.radius_at_position x =
          .ok (CueSectionGeometry.interpolated_radius (d.sections.getD i default) x))
    ∧ (x = (d.sections.getD i default).«end».x → (d.sections.getD i default).length ≠ 0 →
        d.radius_at_position x = .ok (d.sections.getD i default).end_radius) := by
  have hfind : d.get_section_at_position x = some (d.sections.getD i default) := by
    unfold CueDesignGeometry.get_section_at_position
    refine find?_eq_of_first _ _ i h (decide_eq_true hc) ?_
    intro j hj
    simp only [decide_eq_true_eq]
    exact hfirst j hj
  have hradius : (d.sections.getD i default).length ≠ 0 →
      d.radius_at_position x =
        .ok (CueSectionGeometry.interpolated_radius (d.sections.getD i default) x) := by
    intro hlen
    unfold CueDesignGeometry.radius_at_position
    rw [hfind]
    dsimp only
    unfold CueSectionGeometry.radius_at_position CueSectionGeometry.interpolated_radius
    rw [if_neg (not_or.mpr ⟨not_lt.mpr hc.1, not_lt.mpr hc.2⟩), if_neg hlen]
  refine ⟨hfind, hradius, ?_⟩
  intro hx hlen
  rw [hradius hlen]
  congr 1
  subst hx
  have hne : (d.sections.getD i default).«end».x - (d.sections.getD i default).start.x ≠ 0 := hlen
  unfold CueSectionGeometry.interpolated_radius CueSectionGeometry.length
    CueSectionGeometry.start_radius CueSectionGeometry.end_radius
  rw [div_self hne]
  ring

/-- Witness for C10 at a concrete design of two abutting sections whose
boundary radii differ: at the shared boundary `x = 10`, the design
answers with the earlier section's end radius `12`. -/
theorem get_section_at_position_first_witness :
    (mkDesign [⟨"forearm", ⟨0, 10, 0⟩, ⟨10, 12, 0⟩⟩,
               ⟨"handle", ⟨10, 15, 0⟩, ⟨20, 15, 0⟩⟩]).radius_at_position 10 = .ok 12 :=
  (get_section_at_position_first
    (mkDesign [⟨"forearm", ⟨0, 10, 0⟩, ⟨10, 12, 0⟩⟩, ⟨"handle", ⟨10, 15, 0⟩, ⟨20, 15, 0⟩⟩])
    10 0
    (by show (0 : ℕ) < 2; norm_num)
    ⟨by show (0 : ℚ) ≤ 10; norm_num, by show (10 : ℚ) ≤ 10; norm_num⟩
    (fun j hj => absurd hj (Nat.not_lt_zero j))).2.2
    (by show (10 : ℚ) = 10; rfl)
    (by show (10 : ℚ) - 0 ≠ 0; norm_num)

/-- `Python max(...)` over a sequence: `ValueError` on an empty
sequence. -/
def pyMax : List ℚ → Except PyErr ℚ
  | [] => .error .valueError
  | x :: xs => .ok (xs.foldl max x)

/-- `Python min(...)` over a sequence: `ValueError` on an empty
sequence. -/
def pyMin : List ℚ → Except PyErr ℚ
  | [] => .error .valueError
  | x :: xs => .ok (xs.foldl min x)

namespace CueSectionGeometry

/-- `surface_area` (`core.py`): mean-radius lateral surface,
`2π · avg_radius_in · length` with the average radius converted
mm → in. -/
noncomputable def surface_area (s : CueSectionGeometry) : ℝ :=
  2 * Real.pi * ((((s.start_radius + s.end_radius) / 2 : ℚ) : ℝ) / 25.4) * (s.length : ℝ)

/-- `volume` (`core.py`): frustum-of-cone volume
`(1/3)·π·h·(r1² + r1·r2 + r2²)` with radii converted mm → in. -/
noncomputable def volume (s : CueSectionGeometry) : ℝ :=
  (1 / 3) * Real.pi * (s.length : ℝ) *
    (((s.start_radius : ℝ) / 25.4) ^ 2 +
     ((s.start_radius : ℝ) / 25.4) * ((s.end_radius : ℝ) / 25.4) +
     ((s.end_radius : ℝ) / 25.4) ^ 2)

end CueSectionGeometry

/-- `GeometryOperations.calculate_surface_area`: sum of per-section
surface areas. -/
noncomputable def calculate_surface_area (d : CueDesignGeometry) : ℝ :=
  (d.sections.map CueSectionGeometry.surface_area).sum

/-- `GeometryOperations.calculate_volume`: sum of per-section volumes. -/
noncomputable def calculate_volume (d : CueDesignGeometry) : ℝ :=
  (d.sections.map CueSectionGeometry.volume).sum

/-- `GeometryOperations._calculate_center_of_mass`: volume-weighted
average of section axial midpoints, `(x, 0, 0)`; all-zero when the total
volume is not positive. -/
noncomputable def calculate_center_of_mass (d : CueDesignGeometry) : ℝ × ℝ × ℝ :=
  let total_volume := calculate_volume d
  let weighted_x :=
    (d.sections.map (fun s => s.volume * (((s.start.x + s.«end».x) / 2 : ℚ) : ℝ))).sum
  if total_volume > 0 then (weighted_x / total_volume, 0, 0) else (0, 0, 0)

/-- `GeometryOperations._calculate_moment_of_inertia`: treats the design
as one uniform cylinder of the maximum radius and total length; the
`max(...)` over the per-section radius maxima raises `ValueError` on an
empty design. -/
noncomputable def calculate_moment_of_inertia (d : CueDesignGeometry) :
    Except PyErr (ℝ × ℝ) := do
  let total_volume := calculate_volume d
  let max_radius ← pyMax (d.sections.map (fun s => max s.start_radius s.end_radius))
  let mass := total_volume * 1.2
  let i_axial := 0.5 * mass * (((max_radius : ℝ)) / 25.4) ^ 2
  let i_perpendicular :=
    (1 / 12) * mass * (3 * (((max_radius : ℝ)) / 25.4) ^ 2 + ((d.total_length : ℝ)) ^ 2)
  return (i_axial, i_perpendicular)

/-- The consolidated properties report of
`GeometryOperations.calculate_geometric_properties`. -/
structure GeometricProperties where
  total_length : ℚ
  total_surface_area : ℝ
  total_volume : ℝ
  center_of_mass : ℝ × ℝ × ℝ
  moment_of_inertia : ℝ × ℝ
  sections_count : ℕ
  max_radius : ℚ
  min_radius : ℚ
  average_radius : ℚ

/-- The `average_radius` entry of the properties report:
`sum((start_radius + end_radius)/2 for ...) / len(sections)`, which
divides by zero on an empty design. -/
def average_radius_entry (d : CueDesignGeometry) : Except PyErr ℚ :=
  if d.sections.length = 0 then .error .zeroDivisionError
  else .ok ((d.sections.map (fun s => (s.start_radius + s.end_radius) / 2)).sum / (d.sections.length : ℚ))

/-- `GeometryOperations.calculate_geometric_properties`: the dict
literal's entries evaluate left to right, so the moment-of-inertia entry
(whose `max(...)` fails on an empty design) raises before the
`max_radius`/`min_radius`/`average_radius` aggregations do; the average
divides by the section count. -/
noncomputable def calculate_geometric_properties (d : CueDesignGeometry) :
    Except PyErr GeometricProperties := do
  let tl := d.total_length
  let tsa := calculate_surface_area d
  let tv := calculate_volume d
  let com := calculate_center_of_mass d
  let moi ← calculate_moment_of_inertia d
  let cnt := d.sections.length
  let maxR ← pyMax (d.sections.map (fun s => max s.start_radius s.end_radius))
  let minR ← pyMin (d.sections.map (fun s => min s.start_radius s.end_radius))
  let avg ← average_radius_entry d
  return ⟨tl, tsa, tv, com, moi, cnt, maxR, minR, avg⟩

/-- C9: on a design with zero sections, `calculate_geometric_properties`
raises (`ValueError`, from the `max(...)` over an empty sequence inside
the moment-of-inertia entry) instead of returning a report, even though
`total_length`, the total surface area and the total volume all
evaluate to `0.0` for the empty design. -/
theorem calculate_geometric_properties_empty :
    calculate_geometric_properties (mkDesign []) = .error .valueError
    ∧ (mkDesign []).total_length = 0
    ∧ calculate_surface_area (mkDesign []) = 0
    ∧ calculate_volume (mkDesign []) = 0 := by
  have hnil : (mkDesign []).sections = [] := rfl
  have hmoi : calculate_moment_of_inertia (mkDesign []) = .error .valueError := by
    unfold calculate_moment_of_inertia
    rw [hnil]
    rfl
  refine ⟨?_, rfl, ?_, ?_⟩
  · unfold calculate_geometric_properties
    rw [hmoi]
    rfl
  · unfold calculate_surface_area
    rw [hnil]
    simp
  · unfold calculate_volume
    rw [hnil]
    simp

/-- Python `int(...)` on a float/rational: truncation toward zero. -/
def pyInt (q : ℚ) : ℤ := if 0 ≤ q then ⌊q⌋ else ⌈q⌉

/-- The number of 0.1-inch samples taken by `profile_data` in
`views.py`: `range(int(total_length * 10) + 1)`. -/
def num_samples (d : CueDesignGeometry) : ℕ := (pyInt (d.total_length * 10) + 1).toNat

/-- The sampling loop of `profile_data`: for each index `i` in order,
`x = i / 10`; an `ok` radius contributes `(x, radius, radius * 2)`, a
`ValueError` (position outside all sections) is caught and skipped, and
any other error (the uncaught `ZeroDivisionError` from a zero-length
section) aborts the whole request. -/
def profileLoop (d : CueDesignGeometry) : List ℕ → Except PyErr (List (ℚ × ℚ × ℚ))
  | [] => .ok []
  | i :: rest =>
    match d.radius_at_position ((i : ℚ) / 10) with
    | .ok r =>
        match profileLoop d rest with
        | .ok tail => .ok (((i : ℚ) / 10, r, r * 2) :: tail)
        | .error e => .error e
    | .error .valueError => profileLoop d rest
    | .error e => .error e

/-- `profile_data` (`views.py`): the flat profile-point list at 0.1-inch
resolution. -/
def profile_points (d : CueDesignGeometry) : Except PyErr (List (ℚ × ℚ × ℚ)) :=
  profileLoop d (List.range (num_samples d))

/-- The claim's description of the profile samples: one entry per sample
position contained in some section, carrying that position's
interpolated radius and twice it as the diameter; sample positions
outside all sections are omitted. -/
def profile_points_expected (d : CueDesignGeometry) : List (ℚ × ℚ × ℚ) :=
  (List.range (num_samples d)).filterMap (fun (i : ℕ) =>
    match d.get_section_at_position ((i : ℚ) / 10) with
    | some s => some (((i : ℚ) / 10), s.interpolated_radius ((i : ℚ) / 10),
        s.interpolated_radius ((i : ℚ) / 10) * 2)
    | none => none)

/-- On a design without zero-length sections, the design-level radius
query succeeds exactly on positions contained in some section and
answers from the first containing section. -/
theorem radius_at_position_of_no_degenerate (d : CueDesignGeometry)
    (h : ∀ s ∈ d.sections, s.length ≠ 0) (x : ℚ) :
    d.radius_at_position x =
      match d.get_section_at_position x with
      | some s => .ok (s.interpolated_radius x)
      | none => .error .valueError := by
  unfold CueDesignGeometry.radius_at_position
  cases hfind : d.get_section_at_position x with
  | none => rfl
  | some s =>
      dsimp only
      unfold CueDesignGeometry.get_section_at_position at hfind
      have hmem : s ∈ d.sections := List.mem_of_find?_eq_some hfind
      have hpred := List.find?_some hfind
      have hcont : s.start.x ≤ x ∧ x ≤ s.«end».x := by simpa using hpred
      unfold CueSectionGeometry.radius_at_position CueSectionGeometry.interpolated_radius
      rw [if_neg (not_or.mpr ⟨not_lt.mpr hcont.1, not_lt.mpr hcont.2⟩), if_neg (h s hmem)]

/-- Counterexample to C7 as stated: a design holding one zero-length
section at a sampled position.  The sample `x = 0` lies inside that
section, but instead of producing its pair (or skipping it), the
sampling raises `ZeroDivisionError` (which the endpoint's
`except ValueError` does not catch). -/
theorem profile_points_degenerate_counterexample :
    profile_points (mkDesign [⟨"butt", ⟨0, 10, 0⟩, ⟨0, 10, 0⟩⟩]) = .error .zeroDivisionError
    ∧ (mkDesign [⟨"butt", ⟨0, 10, 0⟩, ⟨0, 10, 0⟩⟩]).get_section_at_position 0 =
        some ⟨"butt", ⟨0, 10, 0⟩, ⟨0, 10, 0⟩⟩ := by
  have htl : (mkDesign [(⟨"butt", ⟨0, 10, 0⟩, ⟨0, 10, 0⟩⟩ : CueSectionGeometry)]).total_length
      = 0 := by
    show (0 : ℚ) - 0 = 0
    norm_num
  have hns : num_samples (mkDesign [(⟨"butt", ⟨0, 10, 0⟩, ⟨0, 10, 0⟩⟩ : CueSectionGeometry)])
      = 1 := by
    unfold num_samples pyInt
    rw [htl]
    norm_num
  have hfind : (mkDesign [(⟨"butt", ⟨0, 10, 0⟩, ⟨0, 10, 0⟩⟩ :
      CueSectionGeometry)]).get_section_at_position 0 = some ⟨"butt", ⟨0, 10, 0⟩, ⟨0, 10, 0⟩⟩ := by
    unfold CueDesignGeometry.get_section_at_position
    exact List.find?_cons_of_pos _ (decide_eq_true ⟨le_refl 0, le_refl 0⟩)
  have hrad : (mkDesign [(⟨"butt", ⟨0, 10, 0⟩, ⟨0, 10, 0⟩⟩ :
      CueSectionGeometry)]).radius_at_position 0 = .error .zeroDivisionError := by
    unfold CueDesignGeometry.radius_at_position
    rw [hfind]
    dsimp only
    unfold CueSectionGeometry.radius_at_position
    have hc1 : ¬((0 : ℚ) < (⟨"butt", ⟨0, 10, 0⟩, ⟨0, 10, 0⟩⟩ : CueSectionGeometry).start.x ∨
        (0 : ℚ) > (⟨"butt", ⟨0, 10, 0⟩, ⟨0, 10, 0⟩⟩ : CueSectionGeometry).«end».x) := by
      show ¬((0 : ℚ) < 0 ∨ (0 : ℚ) > 0)
      norm_num
    have hc2 : (⟨"butt", ⟨0, 10, 0⟩, ⟨0, 10, 0⟩⟩ : CueSectionGeometry).length = 0 := by
      show (0 : ℚ) - 0 = 0
      norm_num
    rw [if_neg hc1, if_pos hc2]
  refine ⟨?_, hfind⟩
  unfold profile_points
  rw [hns]
  have hr1 : List.range 1 = [0] := rfl
  rw [hr1, profileLoop]
  have harg : (((0 : ℕ) : ℚ)) / 10 = (0 : ℚ) := by norm_num
  rw [harg, hrad]

/-- C7 (amended): for every design all of whose sections have nonzero
length, the 0.1-inch profile sampling returns, for each sample index
`0 ≤ i ≤ int(total_length·10)` whose position lies inside some section,
the pair of that position's radius and twice it as diameter, and
silently omits every sample position outside all sections; the radius
reported is exactly the design's `radius_at_position` value there. -/
theorem profile_points_spec (d : CueDesignGeometry)
    (h : ∀ s ∈ d.sections, s.length ≠ 0) :
    profile_points d = .ok (profile_points_expected d)
    ∧ (∀ x : ℚ, d.get_section_at_position x = none →
        d.radius_at_position x = .error .valueError)
    ∧ (∀ x : ℚ, ∀ s : CueSectionGeometry, d.get_section_at_position x = some s →
        d.radius_at_position x = .ok (s.interpolated_radius x)) := by
  have hkey := radius_at_position_of_no_degenerate d h
  refine ⟨?_, ?_, ?_⟩
  · unfold profile_points profile_points_expected
    generalize List.range (num_samples d) = idxs
    induction idxs with
    | nil => rfl
    | cons i rest ih =>
        rw [profileLoop, List.filterMap_cons, hkey ((i : ℚ) / 10)]
        cases hfind : d.get_section_at_position ((i : ℚ) / 10) with
        | none =>
            dsimp only
            exact ih
        | some s =>
            dsimp only
            rw [ih]
  · intro x hx
    rw [hkey x, hx]
  · intro x s hx
    rw [hkey x, hx]

/-- Witness for C7 at a concrete two-section design with positive-length
sections: the sampling succeeds and returns the expected list. -/
theorem profile_points_spec_witness :
    profile_points (mkDesign [⟨"forearm", ⟨0, 10, 0⟩, ⟨10, 10, 0⟩⟩,
                              ⟨"handle", ⟨10, 10, 0⟩, ⟨20, 12, 0⟩⟩]) =
      .ok (profile_points_expected
        (mkDesign [⟨"forearm", ⟨0, 10, 0⟩, ⟨10, 10, 0⟩⟩,
                   ⟨"handle", ⟨10, 10, 0⟩, ⟨20, 12, 0⟩⟩])) := by
  refine (profile_points_spec
      (mkDesign [⟨"forearm", ⟨0, 10, 0⟩, ⟨10, 10, 0⟩⟩,
                 ⟨"handle", ⟨10, 10, 0⟩, ⟨20, 12, 0⟩⟩]) ?_).1
  intro s hs
  have h2 : (mkDesign [(⟨"forearm", ⟨0, 10, 0⟩, ⟨10, 10, 0⟩⟩ : CueSectionGeometry),
      ⟨"handle", ⟨10, 10, 0⟩, ⟨20, 12, 0⟩⟩]).sections =
      [⟨"forearm", ⟨0, 10, 0⟩, ⟨10, 10, 0⟩⟩, ⟨"handle", ⟨10, 10, 0⟩, ⟨20, 12, 0⟩⟩] := rfl
  rw [h2] at hs
  simp only [List.mem_cons, List.not_mem_nil, or_false] at hs
  rcases hs with hs | hs
  · rw [hs]
    show (10 : ℚ) - 0 ≠ 0
    norm_num
  · rw [hs]
    show (20 : ℚ) - 10 ≠ 0
    norm_num

/-- A section record as passed to the dict-based validators in
`validators.py`.  Fields read with `.get(...)` may be absent, hence
`Option`; `.get` with no default returns `None`, `.get(key, 0)` is
modelled by `Option.getD _ 0`. -/
structure SectionData where
  section_type : Option String
  start_position_in : Option ℚ
  end_position_in : Option ℚ
  outer_diameter_start_mm : Option ℚ
  outer_diameter_end_mm : Option ℚ
  deriving DecidableEq, Repr

/-- One row of the `SECTION_CONSTRAINTS` class table. -/
structure SectionConstraints where
  min_length_in : ℚ
  max_length_in : ℚ
  min_diameter_mm : ℚ
  max_diameter_mm : ℚ
  deriving DecidableEq, Repr

/-- The `SECTION_CONSTRAINTS` class attribute of `CueGeometryValidator`:
per-type min/max length (inches) and min/max diameter (mm) bounds. -/
def SECTION_CONSTRAINTS : String → Option SectionConstraints := fun t =>
  if t = "joint" then some ⟨1/2, 2, 18, 25⟩
  else if t = "forearm" then some ⟨8, 14, 19, 24⟩
  else if t = "handle" then some ⟨8, 12, 20, 26⟩
  else if t = "sleeve" then some ⟨4, 8, 24, 32⟩
  else if t = "butt" then some ⟨2, 6, 26, 32⟩
  else none

/-- The canonical ordering `VALID_SEQUENCE` of
`validate_section_sequence`. -/
def VALID_SEQUENCE : List String := ["joint", "forearm", "handle", "sleeve", "butt"]

/-- A positional mismatch issue of `validate_section_sequence`. -/
inductive SequenceIssue where
  | mismatch (i : ℕ) (expected actual : String)
  deriving DecidableEq, Repr

/-- The sort key of `validate_section_sequence`:
`sorted(sections_data, key=lambda s: s["start_position_in"])` (the key
is present whenever the validator reaches the sort). -/
def startPosLE (a b : SectionData) : Prop :=
  a.start_position_in.getD 0 ≤ b.start_position_in.getD 0

instance : DecidableRel startPosLE :=
  fun a b => inferInstanceAs (Decidable (a.start_position_in.getD 0 ≤ b.start_position_in.getD 0))

instance : IsTotal SectionData startPosLE :=
  ⟨fun a b => le_total (a.start_position_in.getD 0) (b.start_position_in.getD 0)⟩

instance : IsTrans SectionData startPosLE := ⟨fun _ _ _ h1 h2 => le_trans h1 h2⟩

/-- The loop `for i, expected_type in enumerate(VALID_SEQUENCE)` of
`validate_section_sequence`: breaks once `i` reaches the number of
section types, and appends one mismatch per position where the actual
type differs from the expected one. -/
def seqCheck : List String → ℕ → List String → List SequenceIssue
  | [], _, _ => []
  | e :: rest, i, types =>
    if i ≥ types.length then []
    else
      (if types.getD i "" ≠ e then [SequenceIssue.mismatch i e (types.getD i "")] else []) ++
      seqCheck rest (i + 1) types

/-- `validate_section_sequence` (`validators.py`): `[]` for an empty
list; otherwise sorts by `s["start_position_in"]` (a `KeyError` when
absent — Python's `sorted` evaluates every record's key, and the type
list comprehension then reads every record's `section_type`), and
compares the type sequence positionally against `VALID_SEQUENCE`. -/
def validate_section_sequence (data : List SectionData) : Except PyErr (List SequenceIssue) :=
  if data.isEmpty then .ok []
  else if data.any (fun s => s.start_position_in.isNone) then .error .keyError
  else if data.any (fun s => s.section_type.isNone) then .error .keyError
  else .ok (seqCheck VALID_SEQUENCE 0
    ((List.insertionSort startPosLE data).map (fun s => s.section_type.getD "")))

/-- The claim's description of the sequence check: one mismatch per
index below the length of the shorter of the two sequences at which the
actual type differs from the canonical type. -/
def sequence_mismatches (types : List String) : List SequenceIssue :=
  (List.range (min VALID_SEQUENCE.length types.length)).filterMap (fun k =>
    if types.getD k "" ≠ VALID_SEQUENCE.getD k "" then
      some (SequenceIssue.mismatch k (VALID_SEQUENCE.getD k "") (types.getD k "")) else none)

/-- The enumerate-and-break loop computes exactly the positional
mismatches over the shorter length, at any starting offset. -/
theorem seqCheck_eq_filterMap (seq : List String) (j : ℕ) (types : List String) :
    seqCheck seq j types =
      (List.range (min seq.length (types.length - j))).filterMap (fun k =>
        if types.getD (j + k) "" ≠ seq.getD k "" then
          some (SequenceIssue.mismatch (j + k) (seq.getD k "") (types.getD (j + k) ""))
        else none) := by
  induction seq generalizing j with
  | nil => simp [seqCheck]
  | cons e rest ih =>
      rw [seqCheck]
      by_cases hj : j ≥ types.length
      · rw [if_pos hj]
        have h0 : types.length - j = 0 := by omega
        rw [h0]
        simp
      · rw [if_neg hj]
        have hlen : types.length - j = (types.length - (j + 1)) + 1 := by omega
        rw [hlen]
        simp only [List.length_cons]
        have hmin : min (rest.length + 1) ((types.length - (j + 1)) + 1) =
            (min rest.length (types.length - (j + 1))) + 1 := by omega
        rw [hmin, List.range_succ_eq_map, List.filterMap_cons, List.filterMap_map]
        have hfun : ((fun k => if types.getD (j + k) "" ≠ (e :: rest).getD k "" then
            some (SequenceIssue.mismatch (j + k) ((e :: rest).getD k "") (types.getD (j + k) ""))
            else none) ∘ Nat.succ) =
            (fun k => if types.getD ((j + 1) + k) "" ≠ rest.getD k "" then
            some (SequenceIssue.mismatch ((j + 1) + k) (rest.getD k "") (types.getD ((j + 1) + k) ""))
            else none) := by
          funext k
          have harith : j + (k + 1) = (j + 1) + k := by omega
          simp only [Function.comp, List.getD_cons_succ, harith]
        rw [hfun, ih (j + 1)]
        simp only [add_zero, List.getD_cons_zero]
        by_cases hc : types.getD j "" ≠ e
        · rw [if_pos hc, if_pos hc]
          rfl
        · rw [if_neg hc, if_neg hc]
          rfl

/-- The record data of the claim's example: sections typed
`forearm, handle, joint` in ascending start order. -/
def exampleFHJ : List SectionData :=
  [⟨some "forearm", some 0, some 10, some 20, some 20⟩,
   ⟨some "handle", some 10, some 20, some 20, some 20⟩,
   ⟨some "joint", some 20, some 22, some 20, some 20⟩]

/-- C5: for every list of section records (each carrying its start
position and type, as the validator's bracket accesses require),
`validate_section_sequence` sorts by start position, compares the type
sequence positionally against `joint, forearm, handle, sleeve, butt`,
reports one mismatch per differing index, and stops at the shorter
sequence; the `forearm, handle, joint` design yields exactly the three
mismatches at positions 0, 1 and 2. -/
theorem validate_section_sequence_spec :
    (∀ data : List SectionData,
      (∀ s ∈ data, s.start_position_in.isSome) →
      (∀ s ∈ data, s.section_type.isSome) →
      validate_section_sequence data =
        .ok (sequence_mismatches
          ((List.insertionSort startPosLE data).map (fun s => s.section_type.getD ""))))
    ∧ validate_section_sequence exampleFHJ =
        .ok [SequenceIssue.mismatch 0 "joint" "forearm",
             SequenceIssue.mismatch 1 "forearm" "handle",
             SequenceIssue.mismatch 2 "handle" "joint"] := by
  have hmain : ∀ data : List SectionData,
      (∀ s ∈ data, s.start_position_in.isSome) →
      (∀ s ∈ data, s.section_type.isSome) →
      validate_section_sequence data =
        .ok (sequence_mismatches
          ((List.insertionSort startPosLE data).map (fun s => s.section_type.getD ""))) := by
    intro data h1 h2
    unfold validate_section_sequence
    by_cases hemp : data.isEmpty
    · rw [if_pos hemp]
      cases data with
      | nil => rfl
      | cons a t => simp at hemp
    · rw [if_neg hemp]
      have ha1 : data.any (fun s => s.start_position_in.isNone) = false := by
        rw [List.any_eq_false]
        intro s hs
        have h := h1 s hs
        cases hcase : s.start_position_in with
        | none => rw [hcase] at h; simp at h
        | some v => simp
      have ha2 : data.any (fun s => s.section_type.isNone) = false := by
        rw [List.any_eq_false]
        intro s hs
        have h := h2 s hs
        cases hcase : s.section_type with
        | none => rw [hcase] at h; simp at h
        | some v => simp
      rw [ha1, ha2]
      simp only [Bool.false_eq_true, if_false]
      congr 1
      rw [seqCheck_eq_filterMap]
      unfold sequence_mismatches
      simp only [Nat.sub_zero, zero_add, List.length_map]
  refine ⟨hmain, ?_⟩
  rw [hmain exampleFHJ (by intro s hs; fin_cases hs <;> rfl) (by intro s hs; fin_cases hs <;> rfl)]
  have hsort : List.insertionSort startPosLE exampleFHJ = exampleFHJ := by
    simp [exampleFHJ, List.insertionSort, List.orderedInsert, startPosLE]
  rw [hsort]
  rfl

/-- Witness for C5 at the concrete `forearm, handle, joint` record
list. -/
theorem validate_section_sequence_spec_witness :
    validate_section_sequence exampleFHJ =
      .ok (sequence_mismatches
        ((List.insertionSort startPosLE exampleFHJ).map (fun s => s.section_type.getD ""))) :=
  validate_section_sequence_spec.1 exampleFHJ
    (by intro s hs; fin_cases hs <;> rfl)
    (by intro s hs; fin_cases hs <;> rfl)

/-- The structured issues of `validate_section_constraints`. -/
inductive ConstraintIssue where
  | tooShort
  | tooLong
  | startDiameterTooSmall
  | startDiameterTooLarge
  | endDiameterTooSmall
  | endDiameterTooLarge
  deriving DecidableEq, Repr

/-- The body of `validate_section_constraints` with the class constant
`SECTION_CONSTRAINTS` in scope — the behavior its docstring and the
class table describe.  Unknown (or absent) section types are skipped
with no issue; known types are checked against the table's min/max
length and min/max start/end diameter bounds, with `.get(..., 0)`
defaults for the numeric fields. -/
def validate_section_constraints_scoped (s : SectionData) : List ConstraintIssue :=
  match s.section_type.bind SECTION_CONSTRAINTS with
  | none => []
  | some c =>
    (if s.end_position_in.getD 0 - s.start_position_in.getD 0 < c.min_length_in then
      [ConstraintIssue.tooShort] else []) ++
    (if s.end_position_in.getD 0 - s.start_position_in.getD 0 > c.max_length_in then
      [ConstraintIssue.tooLong] else []) ++
    (if s.outer_diameter_start_mm.getD 0 < c.min_diameter_mm then
      [ConstraintIssue.startDiameterTooSmall] else []) ++
    (if s.outer_diameter_start_mm.getD 0 > c.max_diameter_mm then
      [ConstraintIssue.startDiameterTooLarge] else []) ++
    (if s.outer_diameter_end_mm.getD 0 < c.min_diameter_mm then
      [ConstraintIssue.endDiameterTooSmall] else []) ++
    (if s.outer_diameter_end_mm.getD 0 > c.max_diameter_mm then
      [ConstraintIssue.endDiameterTooLarge] else [])

/-- `validate_section_constraints` as it actually executes.
`SECTION_CONSTRAINTS` is a class attribute of `CueGeometryValidator`,
but the staticmethod body reads it as a bare name; Python name
resolution inside a method skips the enclosing class scope, and no
module-level binding exists, so `section_type not in SECTION_CONSTRAINTS`
raises `NameError` on every call, before any constraint logic runs. -/
def validate_section_constraints (s : SectionData) : Except PyErr (List ConstraintIssue) :=
  .error .nameError

/-- C1 fails on the code: `validate_section_constraints` raises
`NameError` for every record — including records of unknown type that
the claim says are skipped with an empty issue list.  The scoped
variant (the documented intent, reading the class's own table) does
skip unknown and absent types and reports exactly the table-driven
bound violations; shown here at an unknown type, an absent type, an
in-bounds forearm, and a forearm violating the length lower bound, the
start-diameter lower bound and the end-diameter upper bound. -/
theorem validate_section_constraints_bug :
    (∀ s : SectionData, validate_section_constraints s = .error .nameError)
    ∧ validate_section_constraints_scoped ⟨some "carbon", some 0, some 10, some 20, some 20⟩ = []
    ∧ validate_section_constraints_scoped ⟨none, some 0, some 10, some 20, some 20⟩ = []
    ∧ validate_section_constraints_scoped ⟨some "forearm", some 0, some 10, some 21, some 21⟩ = []
    ∧ validate_section_constraints_scoped ⟨some "forearm", some 0, some 4, some 18, some 25⟩ =
        [ConstraintIssue.tooShort, ConstraintIssue.startDiameterTooSmall,
         ConstraintIssue.endDiameterTooLarge] := by
  refine ⟨fun _ => rfl, ?_, rfl, ?_, ?_⟩
  · simp [validate_section_constraints_scoped, SECTION_CONSTRAINTS]
  · simp [validate_section_constraints_scoped, SECTION_CONSTRAINTS]
    norm_num
  · simp [validate_section_constraints_scoped, SECTION_CONSTRAINTS]
    norm_num

/-- An abstract view of an arbitrary Python value, observing only what
`_validate_geometric_definition` tests: truthiness and whether the value
is a dict. -/
structure PyVal where
  truthy : Bool
  isDict : Bool
  deriving DecidableEq, Repr

/-- A `geometric_definition` sub-record of an inlay pattern. -/
structure GeometricDefinition where
  geometry_type : Option String
  dimensions_mm : Option PyVal
  orientation : Option PyVal
  positioning : Option PyVal
  deriving DecidableEq, Repr

/-- A `material_assignment` sub-record of an inlay pattern. -/
structure MaterialAssignment where
  base_material : Option String
  inlay_material : Option String
  contrast_level : Option String
  finish_type : Option String
  deriving DecidableEq, Repr

/-- An inlay pattern record as passed to
`InlayPatternValidator.validate_pattern`.  Absent keys are `none`; the
model restricts `repeat_count` values to integers (so the
`isinstance(..., int)` guard reduces to the 1..24 range check) and
treats a present `geometric_definition`/`material_assignment` as a
truthy (non-empty) dict. -/
structure InlayPatternData where
  pattern_id : Option String
  pattern_category : Option String
  pattern_style : Option String
  repeat_count : Option ℤ
  geometric_definition : Option GeometricDefinition
  material_assignment : Option MaterialAssignment
  deriving DecidableEq, Repr

/-- Structured forms of the issue strings of the inlay validator. -/
inductive InlayIssue where
  | missingField (f : String)
  | invalidCategory
  | invalidStyle
  | invalidRepeatCount
  | invalidGeometryType
  | dimensionsNotObject
  | orientationNotObject
  | positioningNotObject
  | missingMaterialField (f : String)
  | invalidBaseMaterial
  | invalidInlayMaterial
  | invalidContrastLevel
  | invalidFinishType
  deriving DecidableEq, Repr

/-- `VALID_CATEGORIES` of `InlayPatternValidator`. -/
def VALID_CATEGORIES : List String := ["boxed", "slash", "dot", "wrap", "inlay"]

/-- `VALID_STYLES` of `InlayPatternValidator`. -/
def VALID_STYLES : List String :=
  ["window_box", "raised_box", "recessed_box",
   "single_slash", "double_slash", "cross_slash",
   "single_dot", "double_dot", "cluster_dot",
   "full_wrap", "partial_wrap", "spiral_wrap",
   "surface_inlay", "pocket_inlay", "inlay_ring"]

/-- `VALID_MATERIALS` of `InlayPatternValidator`. -/
def VALID_MATERIALS : List String :=
  ["ebony", "maple", "rosewood", "cocobolo", "ivory", "abalone",
   "mother_of_pearl", "turquoise", "silver", "gold", "brass"]

/-- `_validate_geometric_definition`: the geometry type must be one of
the four primitives (an absent type is also invalid — no truthiness
guard here); the optional sub-objects must be dicts when truthy. -/
def validate_geometric_definition (g : GeometricDefinition) : List InlayIssue :=
  (if (match g.geometry_type with
       | some t => decide (t ∉ ["rectangular_prism", "cylinder", "sphere", "custom"])
       | none => true) then [InlayIssue.invalidGeometryType] else []) ++
  (match g.dimensions_mm with
   | some v => if v.truthy && !v.isDict then [InlayIssue.dimensionsNotObject] else []
   | none => []) ++
  (match g.orientation with
   | some v => if v.truthy && !v.isDict then [InlayIssue.orientationNotObject] else []
   | none => []) ++
  (match g.positioning with
   | some v => if v.truthy && !v.isDict then [InlayIssue.positioningNotObject] else []
   | none => [])

/-- `_validate_material_assignment`: required base/inlay material fields
and membership checks guarded by string truthiness (an empty string is
falsy and skips its membership check). -/
def validate_material_assignment (m : MaterialAssignment) : List InlayIssue :=
  (if m.base_material.isNone then [InlayIssue.missingMaterialField "base_material"] else []) ++
  (if m.inlay_material.isNone then [InlayIssue.missingMaterialField "inlay_material"] else []) ++
  (match m.base_material with
   | some b => if b ≠ "" ∧ b ∉ VALID_MATERIALS then [InlayIssue.invalidBaseMaterial] else []
   | none => []) ++
  (match m.inlay_material with
   | some b => if b ≠ "" ∧ b ∉ VALID_MATERIALS then [InlayIssue.invalidInlayMaterial] else []
   | none => []) ++
  (match m.contrast_level with
   | some b => if b ≠ "" ∧ b ∉ ["low", "medium", "high"] then
       [InlayIssue.invalidContrastLevel] else []
   | none => []) ++
  (match m.finish_type with
   | some b => if b ≠ "" ∧ b ∉ ["matte", "satin", "high_gloss"] then
       [InlayIssue.invalidFinishType] else []
   | none => [])

/-- `InlayPatternValidator.validate_pattern`: required-field presence
for `pattern_id`, `pattern_category`, `pattern_style`; category/style
membership guarded by truthiness (absent fields are `None`, falsy, so
their membership checks are skipped); `repeat_count` defaulting to 1 and
bounded 1..24; and nested validation of the optional geometric
definition and material assignment. -/
def validate_pattern (p : InlayPatternData) : List InlayIssue :=
  (if p.pattern_id.isNone then [InlayIssue.missingField "pattern_id"] else []) ++
  (if p.pattern_category.isNone then [InlayIssue.missingField "pattern_category"] else []) ++
  (if p.pattern_style.isNone then [InlayIssue.missingField "pattern_style"] else []) ++
  (match p.pattern_category with
   | some c => if c ≠ "" ∧ c ∉ VALID_CATEGORIES then [InlayIssue.invalidCategory] else []
   | none => []) ++
  (match p.pattern_style with
   | some c => if c ≠ "" ∧ c ∉ VALID_STYLES then [InlayIssue.invalidStyle] else []
   | none => []) ++
  (if p.repeat_count.getD 1 < 1 ∨ p.repeat_count.getD 1 > 24 then
    [InlayIssue.invalidRepeatCount] else []) ++
  (match p.geometric_definition with
   | some g => validate_geometric_definition g
   | none => []) ++
  (match p.material_assignment with
   | some m => validate_material_assignment m
   | none => [])

/-- C8: an inlay pattern carrying `pattern_id` and a valid
`pattern_category` but lacking `pattern_style`, with no repeat count,
geometric definition or material assignment, yields exactly one issue —
the missing-required-field issue for `pattern_style` — and no
category or style issue, since membership checks for absent fields are
skipped. -/
theorem validate_pattern_missing_style (pid cat : String) (p : InlayPatternData)
    (hid : p.pattern_id = some pid)
    (hcat : p.pattern_category = some cat)
    (hvalid : cat ∈ VALID_CATEGORIES)
    (hstyle : p.pattern_style = none)
    (hrc : p.repeat_count = none)
    (hgeom : p.geometric_definition = none)
    (hmat : p.material_assignment = none) :
    validate_pattern p = [InlayIssue.missingField "pattern_style"] := by
  unfold validate_pattern
  rw [hid, hcat, hstyle, hrc, hgeom, hmat]
  have hc : ¬(cat ≠ "" ∧ cat ∉ VALID_CATEGORIES) := by
    rintro ⟨-, habs⟩
    exact habs hvalid
  simp [hc]

/-- Witness for C8 at a concrete pattern record missing only its
style. -/
theorem validate_pattern_missing_style_witness :
    validate_pattern ⟨some "P1", some "boxed", none, none, none, none⟩ =
      [InlayIssue.missingField "pattern_style"] :=
  validate_pattern_missing_style "P1" "boxed" ⟨some "P1", some "boxed", none, none, none, none⟩
    rfl rfl (by decide) rfl rfl rfl rfl

end CueDesigner
